import Mathlib

/-
Verification of the data-fetch-and-persist workflow of the
praxis-buchmann-analytics backend: the upsert store shared by
`DataPersistenceService` and `UnifiedDataService`, the multi-source fan-out
orchestrators, and the Google Ads adapter's derived-metric computations.
Timestamps and dates are modelled as naturals, currency and ratios as
rationals, and each storage session as explicit state passing.
-/

deriving instance DecidableEq for Except

namespace Praxis

/-- Embeds one ORM row of a domain table (models/database.py): an integer
primary key `id`, the composite identity columns (abstracted as `key : K`),
the metric and payload columns (abstracted as `fields : F`), and the audit
columns `created_at` and `updated_at`. -/
structure DbRow (K F : Type) where
  id : Nat
  key : K
  fields : F
  created_at : Nat
  updated_at : Nat
deriving DecidableEq

/-- Embeds an incoming record dictionary handed to a store method: its key
columns, the metric and payload columns it supplies, and `extra`, the
dictionary keys that are not columns of the ORM model (such keys are skipped
by the `hasattr` check on update, and make the declarative model constructor
raise `TypeError` on insert). -/
structure DbRecord (K F : Type) where
  key : K
  fields : F
  extra : List String
deriving DecidableEq

variable {K F : Type} [DecidableEq K]

/-- Embeds the update branch of the store loop (unified_data.py lines 348-352,
data_persistence.py lines 49-54): every column present in the record is
overwritten via `setattr` (the key columns receive the very values they were
matched on, `extra` keys are skipped by `hasattr`), then `updated_at` is set
to now; `id` and `created_at` are not touched. -/
def applyUpdate (r : DbRecord K F) (now : Nat) (row : DbRow K F) : DbRow K F :=
  { row with key := r.key, fields := r.fields, updated_at := now }

/-- Embeds `session.query(Model).filter(key columns match).first()` followed
by the in-place update of the returned object: `some` of the row list with
the first key-matching row updated, or `none` when no row matches. -/
def updateFirstMatch (r : DbRecord K F) (now : Nat) :
    List (DbRow K F) → Option (List (DbRow K F))
  | [] => none
  | row :: rest =>
    if row.key = r.key then some (applyUpdate r now row :: rest)
    else (updateFirstMatch r now rest).map (fun rest2 => row :: rest2)

/-- State of one store call's open session. `db` holds the rows visible to
queries (the committed snapshot, whose loaded objects are mutated in place);
`pending` holds rows added with `session.add` — the session is built with
`autoflush=False` (models/database.py line 119), so pending rows are never
visible to the per-record lookup before `commit`. `inserted` is the running
`stored_count`; `nextId` models the autoincrement primary-key counter. -/
structure TxState (K F : Type) where
  db : List (DbRow K F)
  pending : List (DbRow K F)
  inserted : Nat
  nextId : Nat
deriving DecidableEq

/-- Embeds one iteration of the store loop: look up an existing row by key
among the visible rows; update it in place if found; otherwise construct the
new ORM object — raising `TypeError` when the record carries non-column
keys — and add it to the session, incrementing the stored count. -/
def processRecord (now : Nat) (st : TxState K F) (r : DbRecord K F) :
    Except String (TxState K F) :=
  match updateFirstMatch r now st.db with
  | some db2 => .ok { st with db := db2 }
  | none =>
    if r.extra = [] then
      .ok { st with
        pending := st.pending ++ [⟨st.nextId, r.key, r.fields, now, now⟩],
        inserted := st.inserted + 1,
        nextId := st.nextId + 1 }
    else
      .error ("TypeError: invalid keyword argument " ++ String.intercalate ", " r.extra)

/-- Embeds the `for record in data` loop of a store method, stopping at the
first raised exception. -/
def runBatch (now : Nat) (st : TxState K F) :
    List (DbRecord K F) → Except String (TxState K F)
  | [] => .ok st
  | r :: rs =>
    match processRecord now st r with
    | .ok st2 => runBatch now st2 rs
    | .error e => .error e

/-- Embeds the try/commit/except-rollback/raise body shared by
`DataPersistenceService.store_analytics_data` (data_persistence.py 41-72) and
the six `UnifiedDataService._store_*` methods (unified_data.py): on success
the session commits — updated rows keep their positions, pending rows are
appended — and the count of newly inserted rows is returned; on any error the
session rolls back, leaving the table as before the call, and the exception
is re-raised. -/
def upsertStore (db : List (DbRow K F)) (nextId now : Nat)
    (recs : List (DbRecord K F)) : List (DbRow K F) × Except String Nat :=
  match runBatch now ⟨db, [], 0, nextId⟩ recs with
  | .ok st => (st.db ++ st.pending, .ok st.inserted)
  | .error e => (db, .error e)

/-- The uniqueness invariant of section 3 of the spec: all rows of a domain
table have pairwise distinct key tuples. -/
def keysNodup (db : List (DbRow K F)) : Prop := (db.map DbRow.key).Nodup

instance (db : List (DbRow K F)) : Decidable (keysNodup db) := by
  unfold keysNodup; infer_instance

/-- Embeds the metric and payload columns of the `AnalyticsData` table
(models/database.py lines 16-38) as supplied by
`GoogleAnalyticsService.fetch_basic_metrics` (google_analytics.py 74-89). -/
structure AnalyticsFields where
  sessions : Nat
  users : Nat
  new_users : Nat
  page_views : Nat
  average_session_duration : ℚ
  bounce_rate : ℚ
  pages_per_session : ℚ
  conversions : Nat
  raw_data : List String
deriving DecidableEq

/-- Uniqueness key of the `AnalyticsData` table: (property_id, date). -/
abbrev AnalyticsKey := String × Nat

abbrev AnalyticsRow := DbRow AnalyticsKey AnalyticsFields

abbrev AnalyticsRecord := DbRecord AnalyticsKey AnalyticsFields

/-- Embeds `DataPersistenceService.store_analytics_data`
(data_persistence.py lines 28-72). The method acquires a session via
`get_db_session()` unconditionally — there is no empty-list guard — so the
trailing Boolean, which records whether a session was opened during the
call, is always `true`. -/
def store_analytics_data (db : List AnalyticsRow) (nextId now : Nat)
    (recs : List AnalyticsRecord) : (List AnalyticsRow × Except String Nat) × Bool :=
  (upsertStore db nextId now recs, true)

/-- Embeds `UnifiedDataService._store_analytics_data` (unified_data.py lines
333-366): the same loop, but an empty input list returns 0 before
`get_db_session()` is called, so no session is opened in that case. -/
def storeAnalyticsDataUnified (db : List AnalyticsRow) (nextId now : Nat)
    (recs : List AnalyticsRecord) : (List AnalyticsRow × Except String Nat) × Bool :=
  if recs.isEmpty then ((db, Except.ok 0), false)
  else (upsertStore db nextId now recs, true)

/-- A concrete metric-field value, used for concrete evaluations. -/
def exampleFields : AnalyticsFields :=
  ⟨10, 5, 2, 30, 12, 0, 3, 1, ["raw"]⟩

/-- A second concrete metric-field value. -/
def exampleFields2 : AnalyticsFields :=
  ⟨20, 8, 4, 60, 15, 1, 4, 2, ["raw2"]⟩

/-- Embeds one per-source entry of an orchestrator's results dictionary
(unified_data.py lines 58-113): status, records_fetched, records_stored and
message. -/
structure SourceReport where
  status : String
  records_fetched : Nat
  records_stored : Nat
  message : String
deriving DecidableEq

/-- Outcome of one source's fetch-plus-store try block: `ok (fetched,
stored)` when no exception escaped, `error msg` when one was raised. -/
abbrev SourceOutcome := Except String (Nat × Nat)

/-- Whether a source outcome is a raised exception. -/
def isErr (o : SourceOutcome) : Bool :=
  match o with
  | .error _ => true
  | .ok _ => false

/-- Builds the entry for a plain source (unified_data.py lines 52-92): a
normal return yields status success with the processed message; an exception
is caught locally and yields status error carrying the exception text, with
zero counts. -/
def plainEntry (label : String) (o : SourceOutcome) : SourceReport :=
  match o with
  | .ok (f, s) =>
    ⟨"success", f, s,
      "Successfully processed " ++ toString f ++ " " ++ label ++ " records"⟩
  | .error e => ⟨"error", 0, 0, e⟩

/-- Builds the google_ads entry (unified_data.py lines 94-113): like a plain
source, except that an empty fetched list (the `if ads_data` truthiness
test) downgrades the status to warning with the message `Google Ads not
configured`. -/
def adsEntry (o : SourceOutcome) : SourceReport :=
  match o with
  | .ok (f, s) =>
    if f = 0 then ⟨"warning", f, s, "Google Ads not configured"⟩
    else ⟨"success", f, s, "Successfully processed " ++ toString f ++ " Ads records"⟩
  | .error e => ⟨"error", 0, 0, e⟩

/-- Embeds the overall-status derivation of the three-source fan-out
(unified_data.py lines 120-125): all three succeeded, at least one
succeeded, or none. -/
def overallFromCount3 (c : Nat) : String :=
  if c = 3 then "success" else if 0 < c then "partial_success" else "failed"

/-- Report of `UnifiedDataService.fetch_and_store_all_data`. -/
structure FanoutReport where
  google_analytics : SourceReport
  search_console : SourceReport
  google_ads : SourceReport
  overall_status : String
  total_records_processed : Nat
deriving DecidableEq

/-- Number of per-source entries whose status is success (unified_data.py
lines 116-118); the non-dict values of the results dictionary are excluded
by the isinstance check and never contribute. -/
def successCount3 (ga gsc ads : SourceOutcome) : Nat :=
  List.countP (fun r => r.status == "success")
    [plainEntry "GA" ga, plainEntry "GSC" gsc, adsEntry ads]

/-- Embeds `UnifiedDataService.fetch_and_store_all_data` (unified_data.py
lines 34-136), parameterized by the outcome of each source's fetch-plus-store
try block: the three entries are built in order — an exception is caught in
its own block and never aborts the remaining sources — the overall status is
derived from the success count, and the total is the sum of the fetched
counts. -/
def fetch_and_store_all_data (ga gsc ads : SourceOutcome) : FanoutReport :=
  let gaR := plainEntry "GA" ga
  let gscR := plainEntry "GSC" gsc
  let adsR := adsEntry ads
  { google_analytics := gaR
  , search_console := gscR
  , google_ads := adsR
  , overall_status := overallFromCount3 (successCount3 ga gsc ads)
  , total_records_processed :=
      gaR.records_fetched + gscR.records_fetched + adsR.records_fetched }

/-- Report of `UnifiedDataService.fetch_and_store_enhanced_data`. -/
structure EnhancedReport where
  google_analytics : SourceReport
  page_analytics : SourceReport
  search_console : SourceReport
  search_queries : SourceReport
  search_pages : SourceReport
  google_ads : SourceReport
  overall_status : String
  total_records_processed : Nat
deriving DecidableEq

/-- Embeds the overall-status derivation of the six-source enhanced fan-out
(unified_data.py lines 315-320): at least 4 successes, at least 2, or
fewer. -/
def overallFromCount6 (c : Nat) : String :=
  if 4 ≤ c then "success" else if 2 ≤ c then "partial_success" else "failed"

/-- Number of entries with status success among the six enhanced sources
(unified_data.py lines 311-313). -/
def successCount6 (ga page gsc queries pages ads : SourceOutcome) : Nat :=
  List.countP (fun r => r.status == "success")
    [plainEntry "GA" ga, plainEntry "page analytics" page,
     plainEntry "GSC" gsc, plainEntry "search query" queries,
     plainEntry "search page" pages, adsEntry ads]

/-- Embeds `UnifiedDataService.fetch_and_store_enhanced_data`
(unified_data.py lines 138-331), parameterized by the six per-source
outcomes; only google_ads gets the empty-fetch warning treatment. -/
def fetch_and_store_enhanced_data (ga page gsc queries pages ads : SourceOutcome) :
    EnhancedReport :=
  let gaR := plainEntry "GA" ga
  let pageR := plainEntry "page analytics" page
  let gscR := plainEntry "GSC" gsc
  let quR := plainEntry "search query" queries
  let spR := plainEntry "search page" pages
  let adsR := adsEntry ads
  { google_analytics := gaR
  , page_analytics := pageR
  , search_console := gscR
  , search_queries := quR
  , search_pages := spR
  , google_ads := adsR
  , overall_status := overallFromCount6 (successCount6 ga page gsc queries pages ads)
  , total_records_processed :=
      gaR.records_fetched + pageR.records_fetched + gscR.records_fetched +
      quR.records_fetched + spR.records_fetched + adsR.records_fetched }

/-- Embeds the raw per-row metrics of a Google Ads API response row as read
by `fetch_campaign_performance` (google_ads.py lines 95-102): integer
counts, micro-currency cost, fractional conversions, and the
vendor-computed ctr and average_cpc. -/
structure AdsMetrics where
  impressions : Nat
  clicks : Nat
  cost_micros : Nat
  conversions : ℚ
  ctr : ℚ
  average_cpc : ℚ
deriving DecidableEq

/-- The four derived-ratio fields of a stored ads record. -/
structure AdsDerived where
  ctr : ℚ
  cpc : ℚ
  cost_per_conversion : ℚ
  conversion_rate : ℚ
deriving DecidableEq

/-- Embeds the derived-field computations of the live path of
`fetch_campaign_performance` (google_ads.py lines 99-102): ctr is copied
from the vendor row, cpc divides average_cpc by the constant 1000000, and
only cost_per_conversion and conversion_rate divide by a count floored to 1
with `max`. -/
def liveAdsDerived (m : AdsMetrics) : AdsDerived :=
  { ctr := m.ctr
  , cpc := m.average_cpc / 1000000
  , cost_per_conversion := ((m.cost_micros : ℚ) / 1000000) / max m.conversions 1
  , conversion_rate := (m.conversions / ((max m.clicks 1 : Nat) : ℚ)) * 100 }

/-- Embeds the derived-field computations of `_get_mock_campaign_data`
(google_ads.py lines 275-278); cost is in cents there. -/
def mockAdsDerived (impressions clicks cost conversions : Nat) : AdsDerived :=
  { ctr := ((clicks : ℚ) / ((max impressions 1 : Nat) : ℚ)) * 100
  , cpc := (cost : ℚ) / ((max (clicks * 100) 1 : Nat) : ℚ)
  , cost_per_conversion := ((cost : ℚ) / 100) / ((max conversions 1 : Nat) : ℚ)
  , conversion_rate := ((conversions : ℚ) / ((max clicks 1 : Nat) : ℚ)) * 100 }

/-- Embeds one mock row built by `_get_mock_campaign_data` (google_ads.py
lines 265-291). -/
structure MockAdsRecord where
  customer_id : String
  campaign_id : String
  campaign_name : String
  campaign_status : String
  date : Nat
  impressions : Nat
  clicks : Nat
  cost_micros : Nat
  conversions : Nat
  derived : AdsDerived
deriving DecidableEq

/-- The four fixed mock campaign names (google_ads.py lines 249-254). -/
def mockCampaigns : List String :=
  ["Praxis Buchmann - Allgemein", "Buchmann Therapie - Keywords",
   "Lokale Suche - München", "Physiotherapie Services"]

/-- Embeds `random.randint(a, b)` applied to one draw `x` of an abstract
random stream: some value in the inclusive range a..b. -/
def randint (a b x : Nat) : Nat := a + x % (b - a + 1)

/-- Embeds the construction of one mock record (google_ads.py lines
265-291): a falsy customer id falls back to 1234567890, the campaign id is
1000000 plus the campaign index, and the cost in cents is converted to
micros. -/
def mkMockAdsRecord (cid : String) (i : Nat) (name : String)
    (day impressions clicks cost conversions : Nat) : MockAdsRecord :=
  { customer_id := if cid = "" then "1234567890" else cid
  , campaign_id := toString (1000000 + i)
  , campaign_name := name
  , campaign_status := "ENABLED"
  , date := day
  , impressions := impressions
  , clicks := clicks
  , cost_micros := cost * 10000
  , conversions := conversions
  , derived := mockAdsDerived impressions clicks cost conversions }

/-- Embeds the inner per-campaign loop of `_get_mock_campaign_data` for one
day: four random draws per campaign. -/
def mockDayRecords (cid : String) (day : Nat) (draw : Nat → Nat) :
    List MockAdsRecord :=
  (List.range mockCampaigns.length).map fun i =>
    mkMockAdsRecord cid i (mockCampaigns.getD i "") day
      (randint 50 500 (draw (4 * i))) (randint 2 30 (draw (4 * i + 1)))
      (randint 500 5000 (draw (4 * i + 2))) (randint 0 5 (draw (4 * i + 3)))

/-- Embeds `_get_mock_campaign_data` (google_ads.py lines 241-296): one
record per campaign per day from start to end inclusive; dates are day
numbers and `rng` supplies the random draws. -/
def mockCampaignData (cid : String) (rng : Nat → Nat) (startD endD : Nat) :
    List MockAdsRecord :=
  if endD < startD then []
  else (List.range (endD - startD + 1)).flatMap fun d =>
    mockDayRecords cid (startD + d) (fun j => rng (16 * d + j))

/-- Embeds the `if not self.client` branch of `fetch_campaign_performance`
(google_ads.py lines 57-59): when the client is not configured the fetch
returns mock campaign data — it neither raises nor returns any status
value. -/
def fetchCampaignPerformanceNoClient (cid : String) (rng : Nat → Nat)
    (startD endD : Nat) : List MockAdsRecord :=
  mockCampaignData cid rng startD endD

/-- Embeds the result dictionary of `get_account_info` when the client is
missing. -/
structure AccountInfo where
  customer_id : String
  status : String
  message : String
deriving DecidableEq

/-- Embeds the `if not self.client` branch of `get_account_info`
(google_ads.py lines 217-222). -/
def getAccountInfoNoClient (cid : String) : AccountInfo :=
  ⟨cid, "not_configured", "Google Ads client not initialized. Check configuration."⟩

example :
    upsertStore ([] : List AnalyticsRow) 1 5
      [⟨("p", 1), exampleFields, []⟩, ⟨("p", 1), exampleFields, []⟩] =
    ([⟨1, ("p", 1), exampleFields, 5, 5⟩, ⟨2, ("p", 1), exampleFields, 5, 5⟩],
      .ok 2) := by
  decide

example :
    upsertStore [(⟨7, ("p", 1), exampleFields, 3, 3⟩ : AnalyticsRow)] 8 5
      [⟨("p", 1), exampleFields2, []⟩, ⟨("q", 2), exampleFields, []⟩] =
    ([⟨7, ("p", 1), exampleFields2, 3, 5⟩, ⟨8, ("q", 2), exampleFields, 5, 5⟩],
      .ok 1) := by
  decide

example :
    upsertStore [(⟨7, ("p", 1), exampleFields, 3, 3⟩ : AnalyticsRow)] 8 5
      [⟨("p", 1), exampleFields2, ["bogus"]⟩, ⟨("q", 2), exampleFields, ["bogus"]⟩] =
    ([⟨7, ("p", 1), exampleFields, 3, 3⟩],
      .error "TypeError: invalid keyword argument bogus") := by
  decide

example :
    (fetch_and_store_all_data (.ok (3, 2)) (.error "boom") (.ok (0, 0))).overall_status =
      "partial_success" := by decide

example :
    (fetch_and_store_enhanced_data (.ok (1, 1)) (.ok (1, 1)) (.ok (1, 1))
      (.ok (1, 1)) (.error "x") (.ok (0, 0))).overall_status = "success" := by decide

example : (fetchCampaignPerformanceNoClient "" (fun _ => 0) 0 1).length = 8 := by decide

theorem updateFirstMatch_none_iff (r : DbRecord K F) (now : Nat) :
    ∀ db : List (DbRow K F),
      updateFirstMatch r now db = none ↔ ∀ row ∈ db, row.key ≠ r.key
  | [] => by simp [updateFirstMatch]
  | row :: rest => by
    by_cases hk : row.key = r.key
    · simp [updateFirstMatch, hk]
    · simp [updateFirstMatch, hk, Option.map_eq_none',
        updateFirstMatch_none_iff r now rest]

theorem updateFirstMatch_some_decomp (r : DbRecord K F) (now : Nat) :
    ∀ (db db2 : List (DbRow K F)), updateFirstMatch r now db = some db2 →
      ∃ pre row post, db = pre ++ row :: post ∧ (∀ x ∈ pre, x.key ≠ r.key) ∧
        row.key = r.key ∧ db2 = pre ++ applyUpdate r now row :: post
  | [], db2, h => by simp [updateFirstMatch] at h
  | row :: rest, db2, h => by
    by_cases hk : row.key = r.key
    · simp only [updateFirstMatch, if_pos hk, Option.some.injEq] at h
      exact ⟨[], row, rest, by simp, by simp, hk, by simp [← h]⟩
    · simp only [updateFirstMatch, if_neg hk, Option.map_eq_some'] at h
      obtain ⟨rest2, hrest2, hdb2⟩ := h
      obtain ⟨pre, row0, post, hsplit, hpre, hkey, hres⟩ :=
        updateFirstMatch_some_decomp r now rest rest2 hrest2
      refine ⟨row :: pre, row0, post, by simp [hsplit], ?_, hkey,
        by simp [← hdb2, hres]⟩
      intro x hx
      rcases List.mem_cons.mp hx with h1 | h1
      · exact h1 ▸ hk
      · exact hpre x h1

theorem updateFirstMatch_some_keys (r : DbRecord K F) (now : Nat)
    {db db2 : List (DbRow K F)} (h : updateFirstMatch r now db = some db2) :
    db2.map DbRow.key = db.map DbRow.key := by
  obtain ⟨pre, row, post, hsplit, -, hkey, hres⟩ :=
    updateFirstMatch_some_decomp r now db db2 h
  subst hres
  subst hsplit
  simp [applyUpdate, hkey]

theorem updateFirstMatch_some_of_mem (r : DbRecord K F) (now : Nat)
    {db : List (DbRow K F)} (h : r.key ∈ db.map DbRow.key) :
    ∃ db2, updateFirstMatch r now db = some db2 := by
  rcases hcase : updateFirstMatch r now db with - | db2
  · rw [updateFirstMatch_none_iff] at hcase
    simp only [List.mem_map] at h
    obtain ⟨row, hrow, hkey⟩ := h
    exact absurd hkey (hcase row hrow)
  · exact ⟨db2, rfl⟩

theorem runBatch_ok_spec (now : Nat) :
    ∀ (recs : List (DbRecord K F)) (st st2 : TxState K F),
      runBatch now st recs = .ok st2 →
      st2.db.map DbRow.key = st.db.map DbRow.key ∧
      ∃ newRows, st2.pending = st.pending ++ newRows ∧
        newRows.length + st.inserted = st2.inserted
  | [], st, st2, h => by
    simp only [runBatch, Except.ok.injEq] at h
    subst h
    exact ⟨rfl, [], by simp, by simp⟩
  | r :: rs, st, st2, h => by
    simp only [runBatch] at h
    rcases hpr : processRecord now st r with e | st1
    · rw [hpr] at h; cases h
    · rw [hpr] at h
      rcases hup : updateFirstMatch r now st.db with - | db2
      · simp only [processRecord, hup] at hpr
        by_cases hex : r.extra = []
        · rw [if_pos hex] at hpr
          simp only [Except.ok.injEq] at hpr
          obtain ⟨keys_eq, newRows, hpend, hlen⟩ := runBatch_ok_spec now rs st1 st2 h
          subst hpr
          refine ⟨by simpa using keys_eq,
            ⟨st.nextId, r.key, r.fields, now, now⟩ :: newRows, ?_, ?_⟩
          · simpa [List.append_assoc] using hpend
          · simp only [List.length_cons] at hlen ⊢
            omega
        · rw [if_neg hex] at hpr; cases hpr
      · simp only [processRecord, hup, Except.ok.injEq] at hpr
        obtain ⟨keys_eq, newRows, hpend, hlen⟩ := runBatch_ok_spec now rs st1 st2 h
        subst hpr
        refine ⟨?_, newRows, by simpa using hpend, by simpa using hlen⟩
        rw [keys_eq]
        exact updateFirstMatch_some_keys r now hup

theorem runBatch_nodup (now : Nat) :
    ∀ (recs : List (DbRecord K F)) (st st2 : TxState K F),
      runBatch now st recs = .ok st2 →
      (recs.map DbRecord.key).Nodup →
      (st.db.map DbRow.key ++ st.pending.map DbRow.key).Nodup →
      (∀ k ∈ st.pending.map DbRow.key, k ∉ recs.map DbRecord.key) →
      (st2.db.map DbRow.key ++ st2.pending.map DbRow.key).Nodup
  | [], st, st2, h, _, hnd, _ => by
    simp only [runBatch, Except.ok.injEq] at h
    subst h
    exact hnd
  | r :: rs, st, st2, h, hrecs, hnd, hdisj => by
    simp only [runBatch] at h
    rcases hpr : processRecord now st r with e | st1
    · rw [hpr] at h; cases h
    · rw [hpr] at h
      rcases hup : updateFirstMatch r now st.db with - | db2
      · simp only [processRecord, hup] at hpr
        by_cases hex : r.extra = []
        · rw [if_pos hex] at hpr
          simp only [Except.ok.injEq] at hpr
          subst hpr
          refine runBatch_nodup now rs _ st2 h (by simpa using hrecs.of_cons) ?_ ?_
          · have hknotdb : r.key ∉ st.db.map DbRow.key := by
              rw [updateFirstMatch_none_iff] at hup
              simp only [List.mem_map]
              rintro ⟨row, hrow, hkey⟩
              exact hup row hrow hkey
            have hknotpend : r.key ∉ st.pending.map DbRow.key := by
              intro hmem
              exact hdisj r.key hmem (by simp)
            simp only [List.map_append, List.map_cons, List.map_nil] at *
            rw [List.nodup_append] at hnd ⊢
            obtain ⟨h1, h2, h3⟩ := hnd
            refine ⟨h1, ?_, ?_⟩
            · rw [List.nodup_append]
              exact ⟨h2, List.nodup_singleton _, by
                intro a ha hb
                simp only [List.mem_singleton] at hb
                exact hknotpend (hb ▸ ha)⟩
            · intro a ha hb
              rcases List.mem_append.mp hb with hb1 | hb1
              · exact h3 ha hb1
              · simp only [List.mem_singleton] at hb1
                exact hknotdb (hb1 ▸ ha)
          · intro k hk
            simp only [List.map_append, List.map_cons, List.map_nil,
              List.mem_append, List.mem_singleton] at hk
            rcases hk with hk | hk
            · intro hmem
              exact hdisj k hk (by simp [hmem])
            · subst hk
              simp only [List.map_cons, List.nodup_cons] at hrecs
              exact hrecs.1
        · rw [if_neg hex] at hpr; cases hpr
      · simp only [processRecord, hup, Except.ok.injEq] at hpr
        subst hpr
        refine runBatch_nodup now rs _ st2 h (by simpa using hrecs.of_cons) ?_ ?_
        · simpa [updateFirstMatch_some_keys r now hup] using hnd
        · intro k hk hmem
          exact hdisj k hk (by simp [hmem])

theorem runBatch_all_present (now : Nat) :
    ∀ (recs : List (DbRecord K F)) (st : TxState K F),
      (∀ r ∈ recs, r.key ∈ st.db.map DbRow.key) →
      ∃ st2, runBatch now st recs = .ok st2 ∧ st2.pending = st.pending ∧
        st2.inserted = st.inserted ∧ st2.db.map DbRow.key = st.db.map DbRow.key
  | [], st, _ => ⟨st, by simp [runBatch], rfl, rfl, rfl⟩
  | r :: rs, st, hall => by
    obtain ⟨db2, hup⟩ := updateFirstMatch_some_of_mem r now (hall r (by simp))
    obtain ⟨st2, hrun, hpend, hins, hkeys⟩ :=
      runBatch_all_present now rs { st with db := db2 } (by
        intro x hx
        have := hall x (by simp [hx])
        simpa [updateFirstMatch_some_keys r now hup] using this)
    refine ⟨st2, ?_, hpend, hins, by
      simpa [updateFirstMatch_some_keys r now hup] using hkeys⟩
    simp only [runBatch, processRecord, hup]
    exact hrun

theorem runBatch_keys_present (now : Nat) :
    ∀ (recs : List (DbRecord K F)) (st st2 : TxState K F),
      runBatch now st recs = .ok st2 →
      ∀ r ∈ recs,
        r.key ∈ st2.db.map DbRow.key ∨ r.key ∈ st2.pending.map DbRow.key
  | [], _, _, _, r, hr => by simp at hr
  | r0 :: rs, st, st2, h, r, hr => by
    simp only [runBatch] at h
    rcases hpr : processRecord now st r0 with e | st1
    · rw [hpr] at h; cases h
    · rw [hpr] at h
      rcases List.mem_cons.mp hr with rfl | hr2
      · rcases hup : updateFirstMatch r now st.db with - | db2
        · simp only [processRecord, hup] at hpr
          by_cases hex : r.extra = []
          · rw [if_pos hex] at hpr
            simp only [Except.ok.injEq] at hpr
            subst hpr
            obtain ⟨-, newRows, hpend, -⟩ := runBatch_ok_spec now rs _ st2 h
            right
            rw [hpend]
            simp
          · rw [if_neg hex] at hpr; cases hpr
        · simp only [processRecord, hup, Except.ok.injEq] at hpr
          subst hpr
          obtain ⟨keys_eq, -, -, -⟩ := runBatch_ok_spec now rs _ st2 h
          left
          rw [keys_eq]
          obtain ⟨pre, row, post, hsplit, -, hkey, hres⟩ :=
            updateFirstMatch_some_decomp r now st.db db2 hup
          subst hres
          simp [applyUpdate]
      · exact runBatch_keys_present now rs st1 st2 h r hr2

theorem runBatch_error_eq (now now2 : Nat) :
    ∀ (recs : List (DbRecord K F)) (st st' : TxState K F),
      st.db.map DbRow.key = st'.db.map DbRow.key →
      ∀ e, runBatch now st recs = .error e → runBatch now2 st' recs = .error e
  | [], st, st', _, e, h => by simp [runBatch] at h
  | r :: rs, st, st', hkeys, e, h => by
    simp only [runBatch] at h ⊢
    rcases hup : updateFirstMatch r now st.db with - | db2
    · have hup' : updateFirstMatch r now2 st'.db = none := by
        rw [updateFirstMatch_none_iff] at hup ⊢
        intro row hrow hkey
        have hmem : r.key ∈ st'.db.map DbRow.key := by
          exact List.mem_map.mpr ⟨row, hrow, hkey⟩
        rw [← hkeys] at hmem
        obtain ⟨row0, hrow0, hkey0⟩ := List.mem_map.mp hmem
        exact hup row0 hrow0 hkey0
      simp only [processRecord, hup, hup'] at h ⊢
      by_cases hex : r.extra = []
      · rw [if_pos hex] at h ⊢
        exact runBatch_error_eq now now2 rs _ _ (by simpa using hkeys) e h
      · rw [if_neg hex] at h ⊢
        exact h
    · have hmem : r.key ∈ st'.db.map DbRow.key := by
        rw [← hkeys]
        obtain ⟨pre, row, post, hsplit, -, hkey, -⟩ :=
          updateFirstMatch_some_decomp r now st.db db2 hup
        rw [hsplit]
        exact List.mem_map.mpr ⟨row, by simp, hkey⟩
      obtain ⟨db2', hup'⟩ := updateFirstMatch_some_of_mem r now2 hmem
      simp only [processRecord, hup, hup'] at h ⊢
      refine runBatch_error_eq now now2 rs _ _ ?_ e h
      simp only
      rw [updateFirstMatch_some_keys r now hup, updateFirstMatch_some_keys r now2 hup',
        hkeys]

/-- C1: in every store call, a record whose key matches an existing row
causes exactly that row to be overwritten, with its updated-at timestamp set
to now and its created-at timestamp and identity untouched; a well-formed
record whose key matches no existing row causes exactly one new row to be
added and the running count to increment; and every call that returns a
count returns exactly the number of newly inserted rows — the growth of the
table — with key-matching records contributing nothing. -/
theorem upsert_update_insert_count :
    (∀ (r : DbRecord K F) (now : Nat) (st : TxState K F) (db2 : List (DbRow K F)),
      updateFirstMatch r now st.db = some db2 →
      processRecord now st r = .ok { st with db := db2 } ∧
      ∃ pre row post, st.db = pre ++ row :: post ∧ row.key = r.key ∧
        db2 = pre ++ applyUpdate r now row :: post ∧
        (applyUpdate r now row).updated_at = now ∧
        (applyUpdate r now row).created_at = row.created_at ∧
        (applyUpdate r now row).id = row.id) ∧
    (∀ (r : DbRecord K F) (now : Nat) (st : TxState K F),
      (∀ row ∈ st.db, row.key ≠ r.key) → r.extra = [] →
      processRecord now st r =
        .ok { st with
          pending := st.pending ++ [⟨st.nextId, r.key, r.fields, now, now⟩],
          inserted := st.inserted + 1, nextId := st.nextId + 1 }) ∧
    (∀ (db db2 : List (DbRow K F)) (nid now cnt : Nat) (recs : List (DbRecord K F)),
      upsertStore db nid now recs = (db2, Except.ok cnt) →
      db2.length = db.length + cnt) := by
  refine ⟨?_, ?_, ?_⟩
  · intro r now st db2 h
    refine ⟨by simp [processRecord, h], ?_⟩
    obtain ⟨pre, row, post, hsplit, -, hkey, hres⟩ :=
      updateFirstMatch_some_decomp r now st.db db2 h
    exact ⟨pre, row, post, hsplit, hkey, hres, rfl, rfl, rfl⟩
  · intro r now st hnone hex
    have h0 : updateFirstMatch r now st.db = none :=
      (updateFirstMatch_none_iff r now st.db).mpr hnone
    simp [processRecord, h0, hex]
  · intro db db2 nid now cnt recs h
    unfold upsertStore at h
    rcases hrun : runBatch now ⟨db, [], 0, nid⟩ recs with e | st2
    · rw [hrun] at h
      simp at h
    · rw [hrun] at h
      simp only [Prod.mk.injEq, Except.ok.injEq] at h
      obtain ⟨htbl, hcnt⟩ := h
      obtain ⟨keys_eq, newRows, hpend, hlen⟩ := runBatch_ok_spec now recs _ st2 hrun
      have hdb : st2.db.length = db.length := by
        have := congrArg List.length keys_eq
        simpa using this
      subst htbl hcnt
      simp only [List.length_append, hdb]
      simp only [List.nil_append] at hpend
      rw [hpend]
      have hlen2 : newRows.length + 0 = st2.inserted := hlen
      omega

/-- Witness for the C1 theorem: a table of one row, a batch with one
key-matching record and one fresh record; the table grows by exactly the
returned count 1. -/
theorem upsert_update_insert_count_witness :
    ((upsertStore [(⟨7, ("p", 1), exampleFields, 3, 3⟩ : AnalyticsRow)] 8 5
      [⟨("p", 1), exampleFields2, []⟩, ⟨("q", 2), exampleFields, []⟩]).1).length =
      1 + 1 :=
  (@upsert_update_insert_count AnalyticsKey AnalyticsFields _).2.2
    [⟨7, ("p", 1), exampleFields, 3, 3⟩]
    ((upsertStore [(⟨7, ("p", 1), exampleFields, 3, 3⟩ : AnalyticsRow)] 8 5
      [⟨("p", 1), exampleFields2, []⟩, ⟨("q", 2), exampleFields, []⟩]).1)
    8 5 1
    [⟨("p", 1), exampleFields2, []⟩, ⟨("q", 2), exampleFields, []⟩]
    (by decide)

/-- Counterexample to C2 as stated: from the empty (trivially key-distinct)
table, one store call whose batch holds two records with the same fresh key
inserts two rows with that key — the first pending insert is invisible to
the second record's lookup because the session has autoflush disabled and no
unique constraint exists — so key uniqueness is violated and both records
are counted as inserts. -/
theorem upsert_duplicate_batch_counterexample :
    ¬ keysNodup (upsertStore ([] : List AnalyticsRow) 1 5
      [⟨("p", 1), exampleFields, []⟩, ⟨("p", 1), exampleFields, []⟩]).1 ∧
    (upsertStore ([] : List AnalyticsRow) 1 5
      [⟨("p", 1), exampleFields, []⟩, ⟨("p", 1), exampleFields, []⟩]).2 =
      Except.ok 2 ∧
    keysNodup ([] : List AnalyticsRow) := by
  decide

/-- C2 amended: starting from any state with pairwise distinct keys, a store
call whose input records also have pairwise distinct keys leaves all rows
with distinct keys; and every key-matching fetch overwrites the matched row
in place, preserving the row's identity and original creation timestamp. (A
batch containing two records with the same previously-absent key instead
inserts two rows with that key, since pending inserts are invisible to the
lookup.) -/
theorem upsert_preserves_key_uniqueness (db : List (DbRow K F)) (nid now : Nat)
    (recs : List (DbRecord K F)) (hdb : keysNodup db)
    (hrecs : (recs.map DbRecord.key).Nodup) :
    keysNodup (upsertStore db nid now recs).1 ∧
    (∀ (r : DbRecord K F) (rows db2 : List (DbRow K F)),
      updateFirstMatch r now rows = some db2 →
      ∃ pre row post, rows = pre ++ row :: post ∧ row.key = r.key ∧
        db2 = pre ++ applyUpdate r now row :: post ∧
        (applyUpdate r now row).id = row.id ∧
        (applyUpdate r now row).created_at = row.created_at) := by
  constructor
  · unfold upsertStore
    rcases hrun : runBatch now ⟨db, [], 0, nid⟩ recs with e | st2
    · exact hdb
    · have hnd := runBatch_nodup now recs ⟨db, [], 0, nid⟩ st2 hrun hrecs
        (by simpa [keysNodup] using hdb) (by simp)
      unfold keysNodup
      simpa [List.map_append] using hnd
  · intro r rows db2 h
    obtain ⟨pre, row, post, hsplit, -, hkey, hres⟩ :=
      updateFirstMatch_some_decomp r now rows db2 h
    exact ⟨pre, row, post, hsplit, hkey, hres, rfl, rfl⟩

/-- Witness for the amended C2 theorem: one existing row, a batch updating
it and inserting a fresh key; uniqueness is preserved. -/
theorem upsert_preserves_key_uniqueness_witness :
    keysNodup (upsertStore [(⟨7, ("p", 1), exampleFields, 3, 3⟩ : AnalyticsRow)]
      8 5 [⟨("p", 1), exampleFields2, []⟩, ⟨("q", 2), exampleFields, []⟩]).1 :=
  (upsert_preserves_key_uniqueness
    [(⟨7, ("p", 1), exampleFields, 3, 3⟩ : AnalyticsRow)] 8 5
    [⟨("p", 1), exampleFields2, []⟩, ⟨("q", 2), exampleFields, []⟩]
    (by decide) (by decide)).1

/-- C3: every store call is all-or-nothing: whenever the call's result is an
error, the committed table is exactly the table from before the call — every
update and insert from earlier records of the same batch is rolled back —
and that same error is re-raised to the caller. -/
theorem upsert_atomic_rollback (db : List (DbRow K F)) (nid now : Nat)
    (recs : List (DbRecord K F)) (e : String)
    (h : (upsertStore db nid now recs).2 = Except.error e) :
    upsertStore db nid now recs = (db, Except.error e) := by
  unfold upsertStore at h ⊢
  rcases hrun : runBatch now ⟨db, [], 0, nid⟩ recs with e2 | st2
  · rw [hrun] at h
    dsimp only at h
    injection h with h2
    rw [h2]
  · rw [hrun] at h
    dsimp only at h
    exact Except.noConfusion h

/-- Witness for the C3 theorem: the first record of the batch inserts
successfully, the second raises on insert; the whole call rolls back to the
original one-row table and re-raises. -/
theorem upsert_atomic_rollback_witness :
    upsertStore [(⟨7, ("p", 1), exampleFields, 3, 3⟩ : AnalyticsRow)] 8 5
      [⟨("q", 2), exampleFields2, []⟩, ⟨("z", 9), exampleFields, ["bogus"]⟩] =
    ([⟨7, ("p", 1), exampleFields, 3, 3⟩],
      Except.error "TypeError: invalid keyword argument bogus") :=
  upsert_atomic_rollback [(⟨7, ("p", 1), exampleFields, 3, 3⟩ : AnalyticsRow)] 8 5
    [⟨("q", 2), exampleFields2, []⟩, ⟨("z", 9), exampleFields, ["bogus"]⟩]
    "TypeError: invalid keyword argument bogus" (by decide)

/-- C4: the upsert store is idempotent: for every starting table and input
list, a second call with the identical list leaves the row count unchanged,
and whenever the second call returns a count it returns 0. -/
theorem upsert_idempotent (db : List (DbRow K F)) (nid1 nid2 now1 now2 : Nat)
    (recs : List (DbRecord K F)) :
    ((upsertStore (upsertStore db nid1 now1 recs).1 nid2 now2 recs).1).length =
      ((upsertStore db nid1 now1 recs).1).length ∧
    (∀ c, (upsertStore (upsertStore db nid1 now1 recs).1 nid2 now2 recs).2 =
      Except.ok c → c = 0) := by
  rcases hrun1 : runBatch now1 ⟨db, [], 0, nid1⟩ recs with e | st1
  · have hfst : (upsertStore db nid1 now1 recs).1 = db := by
      unfold upsertStore
      rw [hrun1]
    have hrun2 : runBatch now2 ⟨db, [], 0, nid2⟩ recs = .error e :=
      runBatch_error_eq now1 now2 recs ⟨db, [], 0, nid1⟩ ⟨db, [], 0, nid2⟩ rfl e hrun1
    rw [hfst]
    constructor
    · have : (upsertStore db nid2 now2 recs).1 = db := by
        unfold upsertStore
        rw [hrun2]
      rw [this]
    · intro c hc
      have : (upsertStore db nid2 now2 recs).2 = Except.error e := by
        unfold upsertStore
        rw [hrun2]
      rw [this] at hc
      cases hc
  · have hfst : (upsertStore db nid1 now1 recs).1 = st1.db ++ st1.pending := by
      unfold upsertStore
      rw [hrun1]
    have hall : ∀ r ∈ recs, r.key ∈ (st1.db ++ st1.pending).map DbRow.key := by
      intro r hr
      rcases runBatch_keys_present now1 recs ⟨db, [], 0, nid1⟩ st1 hrun1 r hr with h1 | h1
      · simp only [List.map_append, List.mem_append]
        exact Or.inl h1
      · simp only [List.map_append, List.mem_append]
        exact Or.inr h1
    obtain ⟨st2, hrun2, hpend2, hins2, hkeys2⟩ :=
      runBatch_all_present now2 recs ⟨st1.db ++ st1.pending, [], 0, nid2⟩ hall
    have hsnd : upsertStore (st1.db ++ st1.pending) nid2 now2 recs =
        (st2.db ++ st2.pending, Except.ok st2.inserted) := by
      unfold upsertStore
      rw [hrun2]
    rw [hfst, hsnd]
    constructor
    · simp only [hpend2, hins2, List.append_nil]
      have := congrArg List.length hkeys2
      simpa using this
    · intro c hc
      simp only [hins2, Except.ok.injEq] at hc
      omega

/-- Witness for the C4 theorem at a concrete call: storing the same two
fresh records twice leaves the row count at 2 after the second call, which
inserts nothing. -/
theorem upsert_idempotent_witness :
    ((upsertStore (upsertStore ([] : List AnalyticsRow) 1 5
        [⟨("p", 1), exampleFields, []⟩, ⟨("q", 2), exampleFields2, []⟩]).1 3 6
        [⟨("p", 1), exampleFields, []⟩, ⟨("q", 2), exampleFields2, []⟩]).1).length =
      ((upsertStore ([] : List AnalyticsRow) 1 5
        [⟨("p", 1), exampleFields, []⟩, ⟨("q", 2), exampleFields2, []⟩]).1).length ∧
    (0 : Nat) = 0 :=
  ⟨(upsert_idempotent ([] : List AnalyticsRow) 1 3 5 6
      [⟨("p", 1), exampleFields, []⟩, ⟨("q", 2), exampleFields2, []⟩]).1,
   (upsert_idempotent ([] : List AnalyticsRow) 1 3 5 6
      [⟨("p", 1), exampleFields, []⟩, ⟨("q", 2), exampleFields2, []⟩]).2 0 (by decide)⟩

/-- Counterexample to C9 as stated: with an empty input list,
`DataPersistenceService.store_analytics_data` still acquires a session and
commits — the trailing Boolean of the embedding, which records whether
`get_db_session()` was called, is true — even though it returns 0 and
leaves the table unchanged. -/
theorem store_empty_opens_session_counterexample :
    store_analytics_data [] 1 0 [] = (([], Except.ok 0), true) := by
  decide

/-- C9 amended: an empty input list returns 0 and leaves the table unchanged
in both store implementations; `UnifiedDataService._store_analytics_data`
returns before any session is opened, while
`DataPersistenceService.store_analytics_data` opens a session and commits an
empty transaction even in this case. -/
theorem store_empty_list_noop (db : List AnalyticsRow) (nid now : Nat) :
    store_analytics_data db nid now [] = ((db, Except.ok 0), true) ∧
    storeAnalyticsDataUnified db nid now [] = ((db, Except.ok 0), false) := by
  constructor
  · unfold store_analytics_data upsertStore
    simp [runBatch]
  · simp [storeAnalyticsDataUnified]

/-- Counterexample to C5 as stated: in the live fetch path a row with 0
conversions and a positive cost yields a cost_per_conversion equal to the
full cost (here 2), not 0 — flooring the denominator to 1 makes the ratio
equal its numerator, which need not be 0 when the true denominator count
is 0. -/
theorem ads_ratio_zero_denominator_counterexample :
    (liveAdsDerived ⟨0, 0, 2000000, 0, 0, 0⟩).cost_per_conversion = 2 ∧
    (2 : ℚ) ≠ 0 := by
  constructor
  · have hmax : max (0 : ℚ) 1 = 1 := max_eq_right (by norm_num)
    simp only [liveAdsDerived, hmax]
    norm_num
  · norm_num

/-- C5 amended: every ratio the code derives by dividing by a count uses a
denominator floored to 1 via max, so the divisor is positive and no
divide-by-zero can occur; when the true count is 0 the computed ratio equals
the numerator divided by 1, which is 0 exactly when the numerator is 0 — so
conversion rates with zero conversions are 0, while cost_per_conversion
with 0 conversions equals the full (converted) cost. Live-path ctr and cpc
are not derived by count division at all. -/
theorem ads_safe_division (m : AdsMetrics)
    (impressions clicks cost conversions : Nat) :
    (0 : ℚ) < max m.conversions 1 ∧
    (0 : ℚ) < ((max m.clicks 1 : Nat) : ℚ) ∧
    (0 : ℚ) < ((max impressions 1 : Nat) : ℚ) ∧
    (0 : ℚ) < ((max (clicks * 100) 1 : Nat) : ℚ) ∧
    (m.conversions = 0 →
      (liveAdsDerived m).cost_per_conversion = (m.cost_micros : ℚ) / 1000000 ∧
      (liveAdsDerived m).conversion_rate = 0) ∧
    (m.clicks = 0 →
      (liveAdsDerived m).conversion_rate = m.conversions * 100) ∧
    (impressions = 0 →
      (mockAdsDerived impressions clicks cost conversions).ctr = (clicks : ℚ) * 100) ∧
    (clicks = 0 →
      (mockAdsDerived impressions clicks cost conversions).cpc = (cost : ℚ) ∧
      (mockAdsDerived impressions clicks cost conversions).conversion_rate =
        (conversions : ℚ) * 100) ∧
    (conversions = 0 →
      (mockAdsDerived impressions clicks cost conversions).cost_per_conversion =
        (cost : ℚ) / 100) := by
  have h1 : (0 : ℚ) < max m.conversions 1 :=
    lt_of_lt_of_le one_pos (le_max_right _ _)
  have hc : ∀ n : Nat, (0 : ℚ) < ((max n 1 : Nat) : ℚ) := by
    intro n
    have : 0 < max n 1 := Nat.lt_of_lt_of_le Nat.zero_lt_one (Nat.le_max_right _ _)
    exact_mod_cast this
  refine ⟨h1, hc _, hc _, hc _, ?_, ?_, ?_, ?_, ?_⟩
  · intro h0
    have hmax : max m.conversions 1 = 1 := by rw [h0]; exact max_eq_right (by norm_num)
    constructor
    · simp [liveAdsDerived, hmax]
    · simp [liveAdsDerived, h0]
  · intro h0
    have hmax : max m.clicks 1 = 1 := by rw [h0]; simp
    simp [liveAdsDerived, hmax]
  · intro h0
    have hmax : max impressions 1 = 1 := by rw [h0]; simp
    simp [mockAdsDerived, hmax]
  · intro h0
    have hmax : max (clicks * 100) 1 = 1 := by rw [h0]; simp
    have hmax2 : max clicks 1 = 1 := by rw [h0]; simp
    constructor
    · simp [mockAdsDerived, hmax]
    · simp [mockAdsDerived, hmax2]
  · intro h0
    have hmax : max conversions 1 = 1 := by rw [h0]; simp
    simp [mockAdsDerived, hmax]

/-- Witness for the amended C5 theorem: a live row with 0 conversions and
cost 2000000 micros, and a mock row with 0 conversions and cost 100 cents. -/
theorem ads_safe_division_witness :
    (liveAdsDerived ⟨0, 0, 2000000, 0, 0, 0⟩).conversion_rate = 0 ∧
    (mockAdsDerived 0 0 100 0).cost_per_conversion = (100 : ℚ) / 100 :=
  ⟨((ads_safe_division ⟨0, 0, 2000000, 0, 0, 0⟩ 0 0 100 0).2.2.2.2.1 rfl).2,
   (ads_safe_division ⟨0, 0, 2000000, 0, 0, 0⟩ 0 0 100 0).2.2.2.2.2.2.2.2 rfl⟩

/-- C6: in the three-source fan-out, an exception raised by any source's
fetch-or-store is caught in that source's own try block and becomes a status
error entry carrying the exception text — the other entries are still built
as usual — and whenever exactly one of the three sources raises, the overall
status is partial_success. -/
theorem fanout_error_isolation (ga gsc ads : SourceOutcome) :
    (∀ e, ga = .error e →
      (fetch_and_store_all_data ga gsc ads).google_analytics = ⟨"error", 0, 0, e⟩) ∧
    (∀ e, gsc = .error e →
      (fetch_and_store_all_data ga gsc ads).search_console = ⟨"error", 0, 0, e⟩) ∧
    (∀ e, ads = .error e →
      (fetch_and_store_all_data ga gsc ads).google_ads = ⟨"error", 0, 0, e⟩) ∧
    (List.countP isErr [ga, gsc, ads] = 1 →
      (fetch_and_store_all_data ga gsc ads).overall_status = "partial_success") := by
  refine ⟨?_, ?_, ?_, ?_⟩
  · intro e h
    subst h
    simp [fetch_and_store_all_data, plainEntry]
  · intro e h
    subst h
    simp [fetch_and_store_all_data, plainEntry]
  · intro e h
    subst h
    simp [fetch_and_store_all_data, adsEntry]
  · intro hone
    rcases ga with e1 | ⟨f1, s1⟩ <;> rcases gsc with e2 | ⟨f2, s2⟩ <;>
      rcases ads with e3 | ⟨f3, s3⟩ <;>
      simp_all [isErr, List.countP, List.countP.go, fetch_and_store_all_data,
        successCount3, overallFromCount3, plainEntry, adsEntry] <;>
      by_cases hf : f3 = 0 <;>
      simp_all

/-- Witness for the C6 theorem: Google Analytics raises, the other two
succeed; the entry carries the text and the overall status is
partial_success. -/
theorem fanout_error_isolation_witness :
    (fetch_and_store_all_data (.error "ga down") (.ok (2, 1)) (.ok (3, 3))).google_analytics =
      ⟨"error", 0, 0, "ga down"⟩ ∧
    (fetch_and_store_all_data (.error "ga down") (.ok (2, 1)) (.ok (3, 3))).overall_status =
      "partial_success" :=
  ⟨(fanout_error_isolation (.error "ga down") (.ok (2, 1)) (.ok (3, 3))).1 "ga down" rfl,
   (fanout_error_isolation (.error "ga down") (.ok (2, 1)) (.ok (3, 3))).2.2.2 (by decide)⟩

/-- C7: the enhanced six-source fan-out derives its overall status from the
number of entries whose status is success: at least 4 successes give
success, 2 or 3 give partial_success, and fewer than 2 give failed. -/
theorem enhanced_overall_thresholds (ga page gsc queries pages ads : SourceOutcome) :
    (fetch_and_store_enhanced_data ga page gsc queries pages ads).overall_status =
      overallFromCount6 (successCount6 ga page gsc queries pages ads) ∧
    (4 ≤ successCount6 ga page gsc queries pages ads →
      (fetch_and_store_enhanced_data ga page gsc queries pages ads).overall_status =
        "success") ∧
    (2 ≤ successCount6 ga page gsc queries pages ads →
      successCount6 ga page gsc queries pages ads ≤ 3 →
      (fetch_and_store_enhanced_data ga page gsc queries pages ads).overall_status =
        "partial_success") ∧
    (successCount6 ga page gsc queries pages ads < 2 →
      (fetch_and_store_enhanced_data ga page gsc queries pages ads).overall_status =
        "failed") := by
  have hov : (fetch_and_store_enhanced_data ga page gsc queries pages ads).overall_status =
      overallFromCount6 (successCount6 ga page gsc queries pages ads) := rfl
  refine ⟨hov, ?_, ?_, ?_⟩
  · intro h
    rw [hov]
    simp only [overallFromCount6]
    rw [if_pos h]
  · intro h2 h3
    rw [hov]
    simp only [overallFromCount6]
    rw [if_neg (by omega), if_pos h2]
  · intro h
    rw [hov]
    simp only [overallFromCount6]
    rw [if_neg (by omega), if_neg (by omega)]

/-- Witness for the C7 theorem: five sources succeed and Google Ads returns
records, so six successes give overall success; with only two successes the
overall status is partial_success. -/
theorem enhanced_overall_thresholds_witness :
    (fetch_and_store_enhanced_data (.ok (1, 1)) (.ok (1, 1)) (.ok (1, 1))
      (.ok (1, 1)) (.ok (1, 1)) (.ok (2, 2))).overall_status = "success" ∧
    (fetch_and_store_enhanced_data (.ok (1, 1)) (.ok (1, 1)) (.error "x")
      (.error "y") (.error "z") (.ok (0, 0))).overall_status = "partial_success" :=
  ⟨(enhanced_overall_thresholds (.ok (1, 1)) (.ok (1, 1)) (.ok (1, 1))
      (.ok (1, 1)) (.ok (1, 1)) (.ok (2, 2))).2.1 (by decide),
   (enhanced_overall_thresholds (.ok (1, 1)) (.ok (1, 1)) (.error "x")
      (.error "y") (.error "z") (.ok (0, 0))).2.2.1 (by decide) (by decide)⟩

/-- Counterexample to C8 as stated: with the client not configured, the
campaign fetch returns the synthetic mock dataset — 8 records for a two-day
range, not an empty result — and its return value carries no status field
at all; only the separate account-info call reports not_configured. -/
theorem ads_not_configured_counterexample :
    (fetchCampaignPerformanceNoClient "" (fun _ => 0) 0 1).length = 8 ∧
    (8 : Nat) ≠ 0 := by
  decide

/-- C8 amended: when the vendor client is not configured the campaign fetch
returns the clearly-labeled synthetic mock dataset without raising — four
records per day of the requested range, hence non-empty whenever the range
is valid — while the account-info call is what reports a not_configured
status instead of raising. -/
theorem ads_not_configured_behavior (cid : String) (rng : Nat → Nat)
    (s e : Nat) (h : s ≤ e) :
    (fetchCampaignPerformanceNoClient cid rng s e).length = 4 * (e - s + 1) ∧
    fetchCampaignPerformanceNoClient cid rng s e ≠ [] ∧
    (getAccountInfoNoClient cid).status = "not_configured" := by
  have hday : ∀ d : Nat,
      (mockDayRecords cid (s + d) fun j => rng (16 * d + j)).length = 4 := by
    intro d
    simp [mockDayRecords, mockCampaigns]
  have hlen : (fetchCampaignPerformanceNoClient cid rng s e).length = 4 * (e - s + 1) := by
    unfold fetchCampaignPerformanceNoClient mockCampaignData
    rw [if_neg (by omega)]
    rw [List.length_flatMap]
    have hmap : ∀ l : List Nat,
        (List.map (List.length ∘ fun d =>
          mockDayRecords cid (s + d) fun j => rng (16 * d + j)) l).sum =
        4 * l.length := by
      intro l
      induction l with
      | nil => simp
      | cons a t ih =>
        simp only [List.map_cons, List.sum_cons, Function.comp_apply, hday a, ih,
          List.length_cons]
        ring
    rw [hmap]
    simp
  refine ⟨hlen, ?_, rfl⟩
  rw [← List.length_pos]
  rw [hlen]
  omega

/-- Witness for the amended C8 theorem at a concrete two-day range. -/
theorem ads_not_configured_behavior_witness :
    (fetchCampaignPerformanceNoClient "x" (fun _ => 1) 0 1).length = 4 * (1 - 0 + 1) ∧
    fetchCampaignPerformanceNoClient "x" (fun _ => 1) 0 1 ≠ [] ∧
    (getAccountInfoNoClient "x").status = "not_configured" :=
  ads_not_configured_behavior "x" (fun _ => 1) 0 1 (by decide)

/-- C10: whenever the Google Ads fetch returns an empty list without
raising, the google_ads entry has status warning with message Google Ads
not configured; that entry is not counted as a success, so the overall
status is never success, and when both other sources succeed it is exactly
partial_success. -/
theorem fanout_ads_empty_warning (ga gsc : SourceOutcome) (stored : Nat) :
    (fetch_and_store_all_data ga gsc (.ok (0, stored))).google_ads =
      ⟨"warning", 0, stored, "Google Ads not configured"⟩ ∧
    (fetch_and_store_all_data ga gsc (.ok (0, stored))).overall_status ≠ "success" ∧
    (∀ a b, ga = .ok a → gsc = .ok b →
      (fetch_and_store_all_data ga gsc (.ok (0, stored))).overall_status =
        "partial_success") := by
  refine ⟨by simp [fetch_and_store_all_data, adsEntry], ?_, ?_⟩
  · have hc : successCount3 ga gsc (.ok (0, stored)) ≤ 2 := by
      rcases ga with e1 | ⟨f1, s1⟩ <;> rcases gsc with e2 | ⟨f2, s2⟩ <;>
        simp [successCount3, List.countP, List.countP.go, plainEntry, adsEntry]
    have hov : (fetch_and_store_all_data ga gsc (.ok (0, stored))).overall_status =
        overallFromCount3 (successCount3 ga gsc (.ok (0, stored))) := rfl
    rw [hov]
    simp only [overallFromCount3]
    rw [if_neg (by omega)]
    split_ifs <;> decide
  · rintro ⟨a1, a2⟩ ⟨b1, b2⟩ rfl rfl
    have hc : successCount3 (Except.ok (a1, a2)) (Except.ok (b1, b2)) (.ok (0, stored)) = 2 := by
      simp [successCount3, List.countP, List.countP.go, plainEntry, adsEntry]
    have hov : (fetch_and_store_all_data (Except.ok (a1, a2)) (Except.ok (b1, b2))
        (.ok (0, stored))).overall_status =
        overallFromCount3 (successCount3 (Except.ok (a1, a2)) (Except.ok (b1, b2))
          (.ok (0, stored))) := rfl
    rw [hov, hc]
    decide

/-- Witness for the C10 theorem: both other sources succeed while ads
fetches nothing; the report shows the warning entry and partial_success. -/
theorem fanout_ads_empty_warning_witness :
    (fetch_and_store_all_data (.ok (1, 1)) (.ok (2, 2)) (.ok (0, 0))).overall_status =
      "partial_success" :=
  (fanout_ads_empty_warning (.ok (1, 1)) (.ok (2, 2)) 0).2.2 (1, 1) (2, 2) rfl rfl

end Praxis
